import Mathlib

/-!
Verification development for the growth-toolkit event core.

This file gives a shallow embedding of the event distribution engine
(EventBus in src/lib/events/event-bus.ts), the attribution tracker and
classifier (src/lib/attribution/attribution-tracker.ts and
src/lib/utils/attribution.ts), and the durable keyed store
(src/lib/utils/storage.ts), together with theorems about the embedded
definitions.

Modelling conventions:
- JavaScript exceptions are modelled with the Except monad; a caught
  exception is a recovery to a normal value at the same place the source
  has a try/catch (or Promise.allSettled).
- The single-threaded event loop lets the awaited calls of one method be
  modelled as a sequential state-passing computation.
- Nondeterministic inputs of the environment (current time, generated
  random ids, online status, page URL data) are explicit parameters.
- The persisted browser storage visible to the EventBus is modelled as a
  record of the keys the bus uses; its accessors never throw in the
  source (SafeStorage catches internally), so they are total functions.
-/

namespace GrowthToolkit

/-! ## JavaScript string primitives used across the embedding -/

/-- Structural-recursion helper: does the first list start the second
(mirrors String.prototype.startsWith on char lists)? -/
def listStarts [BEq α] : List α → List α → Bool
  | [], _ => true
  | _ :: _, [] => false
  | a :: as, b :: bs => a == b && listStarts as bs

/-- Structural-recursion helper: does the first list occur contiguously in
the second (mirrors String.prototype.includes on char lists)? -/
def listHasInfix [BEq α] (pat : List α) : List α → Bool
  | [] => pat.isEmpty
  | c :: rest => listStarts pat (c :: rest) || listHasInfix pat rest

/-- String.prototype.includes. -/
def strIncludes (s pat : String) : Bool :=
  listHasInfix pat.toList s.toList

/-- String.prototype.toLowerCase, written over the char list so the kernel
can evaluate it. -/
def lowerString (s : String) : String :=
  String.mk (s.toList.map Char.toLower)

/-- Replace the first occurrence of pat in l by repl: the semantics of
String.prototype.replace with a string pattern. -/
def replaceFirstList [BEq α] (pat repl : List α) : List α → List α
  | [] => []
  | c :: rest =>
    if listStarts pat (c :: rest) then repl ++ (c :: rest).drop pat.length
    else c :: replaceFirstList pat repl rest

/-- domain.replace of the www. prefix by the empty string (first occurrence
only, as JS replace with a string pattern). -/
def stripWww (domain : String) : String :=
  String.mk (replaceFirstList "www.".toList [] domain.toList)


/-- ConsentState from src/lib/types/events.ts. -/
structure ConsentState where
  analytics : Bool
  ads : Bool
  marketing : Bool
deriving DecidableEq, Repr

/-- The fields of BaseEvent/EventPayload (src/lib/types/events.ts) that the
EventBus logic reads or writes.  The remaining optional fields (step, label,
value, variant, profile_id, attribution, click_ids, device, geo, payload,
identity, enrichment, alert_meta) are carried through unchanged by every
modelled operation and do not affect any control flow, so they are omitted
from the embedding. -/
structure EventPayload where
  event_id : String
  occurred_at : String
  action : String
  visitor_id : String
  session_id : String
  consent : ConsentState
  region : String
  dedup_id : String
  experience_id : Option String
deriving DecidableEq, Repr

/-- A caller-supplied partial event (the eventData argument of track, typed
Partial of EventPayload in the source).  A field is some v when the caller
passed the key with string value v (v may be the empty string, which is
falsy in JavaScript), and none when the key is absent.  A key present with
an explicit undefined value behaves like the falsy present case and is not
separately modelled. -/
structure EventInput where
  event_id : Option String := none
  occurred_at : Option String := none
  action : Option String := none
  visitor_id : Option String := none
  session_id : Option String := none
  consent : Option ConsentState := none
  region : Option String := none
  dedup_id : Option String := none
  experience_id : Option String := none
deriving DecidableEq, Repr

/-- EventBusConfig from src/lib/events/event-bus.ts. -/
structure EventBusConfig where
  enableOfflineQueue : Bool
  maxQueueSize : Nat
  retryAttempts : Nat
  retryDelay : Nat
  batchSize : Nat
  flushInterval : Nat
deriving DecidableEq, Repr

/-- The defaults merged in the EventBus constructor. -/
def defaultEventBusConfig : EventBusConfig :=
  { enableOfflineQueue := true
    maxQueueSize := 1000
    retryAttempts := 3
    retryDelay := 2000
    batchSize := 10
    flushInterval := 5000 }

/-- QueuedEvent from src/lib/events/event-bus.ts.  Timestamps are epoch
milliseconds as produced by Date.now(). -/
structure QueuedEvent where
  event : EventPayload
  attempts : Nat
  created_at : Nat
  next_retry_at : Option Nat
deriving DecidableEq, Repr

/-- The persisted keys the EventBus reads and writes through the storage
utility: recent_event_ids, event_queue, visitor_id, session_id.  SafeStorage
catches every storage error internally, so these accessors are total; the
TTL envelope is modelled separately with the durable keyed store below. -/
structure BusStorage where
  recentEventIds : List String
  eventQueue : List QueuedEvent
  visitorId : Option String
  sessionId : Option String
deriving DecidableEq, Repr

/-- Fresh storage: every getItem read returns null. -/
def emptyBusStorage : BusStorage :=
  { recentEventIds := [], eventQueue := [], visitorId := none, sessionId := none }

/-- An analytics adapter as the EventBus sees it (src/lib/types/adapters.ts).
checkConsent is a synchronous boolean; trackOk e is true when the adapter's
track(e) promise resolves and false when it rejects (throws). -/
structure Adapter where
  name : String
  checkConsent : ConsentState → String → Bool
  trackOk : EventPayload → Bool

/-- A registered event listener; the Except result is ok when the listener
returns normally and error when it throws. -/
def Listener : Type := EventPayload → Except String Unit

/-- An observable external invocation made during one EventBus operation:
a listener call (by position) or an adapter track call (by adapter name). -/
inductive Call where
  | listener (index : Nat)
  | adapterTrack (name : String)
deriving DecidableEq, Repr

/-- The base64 output alphabet used by window.btoa. -/
def base64Alphabet : List Char :=
  "ABCDEFGHIJKLMNOPQRSTUVWXYZabcdefghijklmnopqrstuvwxyz0123456789+/".toList

/-- One output character of the base64 encoder. -/
def base64Char (n : Nat) : Char :=
  base64Alphabet.getD n 'A'

/-- Base64: three input bytes to four output characters, with the standard
one or two padding characters on a short final group. -/
def base64Encode : List Nat → List Char
  | [] => []
  | [b1] =>
    [base64Char (b1 / 4), base64Char (b1 % 4 * 16), '=', '=']
  | [b1, b2] =>
    [base64Char (b1 / 4), base64Char (b1 % 4 * 16 + b2 / 16), base64Char (b2 % 16 * 4), '=']
  | b1 :: b2 :: b3 :: rest =>
    base64Char (b1 / 4) :: base64Char (b1 % 4 * 16 + b2 / 16) ::
      base64Char (b2 % 16 * 4 + b3 / 64) :: base64Char (b3 % 64) :: base64Encode rest

/-- window.btoa: base64 of the code points of a latin-1 string; a character
above U+00FF raises InvalidCharacterError, modelled as the error case. -/
def btoa (s : String) : Except String String :=
  if s.toList.all (fun c => c.toNat ≤ 255) then
    Except.ok (String.mk (base64Encode (s.toList.map Char.toNat)))
  else Except.error "InvalidCharacterError"

/-- generateEventId from the identifier module concatenated into
src/src/lib/utils/device.ts: the event_ prefix on a fresh ulid.  The ulid
library call is an external nondeterministic input, passed in as the fresh
parameter. -/
def generateEventId (fresh : String) : String :=
  "event_" ++ fresh

/-- generateDedupId from the identifier module concatenated into
src/src/lib/utils/device.ts: the pipe-join of visitor_id, action,
experience_id (JS-falsy values replaced by the no_experience placeholder)
and timestamp (JS-falsy values replaced by Date.now().toString(), passed in
as nowMsStr), then btoa of the key with the characters / + = removed and
the result lowercased.  btoa can throw, so the result is fallible. -/
def generateDedupId (visitor_id action : String) (experience_id : Option String)
    (timestamp : String) (nowMsStr : String) : Except String String :=
  let key := visitor_id ++ "|" ++ action ++ "|" ++
    (match experience_id with
      | some e => if e = "" then "no_experience" else e
      | none => "no_experience") ++ "|" ++
    (if timestamp = "" then nowMsStr else timestamp)
  match btoa key with
  | Except.ok b =>
    Except.ok (lowerString (String.mk (b.toList.filter
      (fun c => !(c == '/' || c == '+' || c == '=')))))
  | Except.error e => Except.error e

/-- EventBus.getVisitorId: storage.getItem of visitor_id, with JS falsy
fallback to the literal unknown. -/
def busGetVisitorId (st : BusStorage) : String :=
  match st.visitorId with
  | some v => if v = "" then "unknown" else v
  | none => "unknown"

/-- EventBus.getSessionId: storage.getItem of session_id, with JS falsy
fallback to the literal unknown. -/
def busGetSessionId (st : BusStorage) : String :=
  match st.sessionId with
  | some v => if v = "" then "unknown" else v
  | none => "unknown"

/-- EventBus.getDefaultConsent. -/
def getDefaultConsent : ConsentState :=
  { analytics := false, ads := false, marketing := false }

/-- The object literal EventBus.enrichEvent builds before the dedup-id
overwrite: default fields spread over with eventData, so a key present in
eventData always wins over the default computed for it and a key absent
from eventData receives the default.  nowIso is the new
Date().toISOString() value, fresh the ulid feeding generateEventId. -/
def enrichBase (st : BusStorage) (nowIso fresh : String) (input : EventInput) :
    EventPayload :=
  { event_id := input.event_id.getD (generateEventId fresh)
    occurred_at := input.occurred_at.getD nowIso
    action := input.action.getD "unknown"
    visitor_id := input.visitor_id.getD (busGetVisitorId st)
    session_id := input.session_id.getD (busGetSessionId st)
    consent := input.consent.getD getDefaultConsent
    region := input.region.getD "US"
    dedup_id := input.dedup_id.getD ""
    experience_id := input.experience_id }

/-- EventBus.enrichEvent: the spread object (enrichBase), then dedup_id is
unconditionally overwritten with generateDedupId of the final visitor_id,
action, experience_id and occurred_at.  generateDedupId can throw (btoa),
and the failure propagates out of enrichEvent into track's catch.
nowMsStr is the Date.now().toString() value of the same instant (the
dedup fallback timestamp). -/
def enrichEvent (st : BusStorage) (nowIso nowMsStr fresh : String)
    (input : EventInput) : Except String EventPayload :=
  let e0 := enrichBase st nowIso fresh input
  match generateDedupId e0.visitor_id e0.action e0.experience_id e0.occurred_at nowMsStr with
  | Except.ok d => Except.ok { e0 with dedup_id := d }
  | Except.error e => Except.error e

/-- EventBus.validateEvent: Boolean of the conjunction of the five required
fields, where a string is truthy exactly when nonempty. -/
def validateEvent (e : EventPayload) : Bool :=
  e.event_id != "" && e.action != "" && e.visitor_id != "" &&
    e.session_id != "" && e.dedup_id != ""

/-- EventBus.isDuplicate: membership of the dedup id in the persisted
recent_event_ids buffer. -/
def isDuplicate (st : BusStorage) (e : EventPayload) : Bool :=
  st.recentEventIds.contains e.dedup_id

/-- EventBus.notifyListeners: every listener is invoked with the event;
each rejection is caught and logged (Promise.allSettled), so the result is
only the list of listener invocations and no error escapes. -/
def notifyListeners (listeners : List Listener) (e : EventPayload) : List Call :=
  listeners.enum.map fun p =>
    match p.2 e with
    | Except.ok _ => Call.listener p.1
    | Except.error _ => Call.listener p.1

/-- EventBus.markEventProcessed: push the dedup id onto recent_event_ids,
then shift the oldest entry when the length exceeds 100. -/
def markEventProcessed (st : BusStorage) (dedupId : String) : BusStorage :=
  let ids := st.recentEventIds ++ [dedupId]
  let ids := if ids.length > 100 then ids.tail else ids
  { st with recentEventIds := ids }

/-- EventBus.queueEvent: when the persisted queue is at or above
maxQueueSize the oldest entry is shifted off, then the event is pushed with
attempts 0 and created_at Date.now().  The surrounding try/catch only guards
storage errors, which the storage model does not raise. -/
def queueEvent (cfg : EventBusConfig) (st : BusStorage) (e : EventPayload)
    (nowMs : Nat) : BusStorage :=
  let queue := st.eventQueue
  let queue := if cfg.maxQueueSize ≤ queue.length then queue.tail else queue
  { st with eventQueue :=
      queue ++ [{ event := e, attempts := 0, created_at := nowMs, next_retry_at := none }] }

/-- One adapter step of EventBus.processEvent: the async callback checks
consent, invokes adapter.track (recorded as a Call), and on rejection the
catch queues the event when the offline queue is enabled.  No error escapes
the callback. -/
def processEventStep (cfg : EventBusConfig) (e : EventPayload) (nowMs : Nat)
    (acc : BusStorage × List Call) (a : Adapter) : BusStorage × List Call :=
  if a.checkConsent e.consent e.region then
    if a.trackOk e then (acc.1, acc.2 ++ [Call.adapterTrack a.name])
    else
      let st' := if cfg.enableOfflineQueue then queueEvent cfg acc.1 e nowMs else acc.1
      (st', acc.2 ++ [Call.adapterTrack a.name])
  else acc

/-- EventBus.processEvent: fan out to every registered adapter with
per-adapter catch (Promise.allSettled), then markEventProcessed records the
dedup id after the dispatch attempt settled. -/
def processEvent (cfg : EventBusConfig) (adapters : List Adapter)
    (st : BusStorage) (e : EventPayload) (nowMs : Nat) : BusStorage × List Call :=
  let r := adapters.foldl (processEventStep cfg e nowMs) (st, [])
  (markEventProcessed r.1 e.dedup_id, r.2)

/-- The try block of EventBus.track: enrich (whose dedup generator can
throw from btoa), validate (throwing on an invalid event), dedup check
(early return), listener fan-out, then adapter dispatch when online or
queueing when offline with the queue enabled. -/
def trackTry (cfg : EventBusConfig) (adapters : List Adapter)
    (listeners : List Listener) (isOnline : Bool) (st : BusStorage)
    (input : EventInput) (nowIso : String) (nowMs : Nat) (fresh : String) :
    Except String (BusStorage × List Call) :=
  match enrichEvent st nowIso (toString nowMs) fresh input with
  | Except.error e => Except.error e
  | Except.ok e =>
    if ¬ validateEvent e then Except.error "Invalid event data"
    else if isDuplicate st e then Except.ok (st, [])
    else
      let lcalls := notifyListeners listeners e
      if isOnline then
        let r := processEvent cfg adapters st e nowMs
        Except.ok (r.1, lcalls ++ r.2)
      else if cfg.enableOfflineQueue then
        Except.ok (queueEvent cfg st e nowMs, lcalls)
      else
        Except.ok (st, lcalls)

/-- EventBus.track: the whole body runs inside a try/catch whose catch logs
the error to the console and the error-tracking collaborator and returns.
The throw sites inside the try — the dedup generator's btoa and the
validation failure — occur before any state change or external call. -/
def track (cfg : EventBusConfig) (adapters : List Adapter)
    (listeners : List Listener) (isOnline : Bool) (st : BusStorage)
    (input : EventInput) (nowIso : String) (nowMs : Nat) (fresh : String) :
    Except String (BusStorage × List Call) :=
  match trackTry cfg adapters listeners isOnline st input nowIso nowMs fresh with
  | Except.ok r => Except.ok r
  | Except.error _ => Except.ok (st, [])

/-- One batch entry of EventBus.processQueuedEvents: an entry whose
next_retry_at lies in the future is unshifted back onto the front of the
local queue array; otherwise processEvent is awaited on it.  processEvent
never rejects (every failure inside it is caught), so the catch block of the
source that would increment attempts, set next_retry_at and re-queue or drop
the entry is unreachable and has no counterpart here.  The source also
collects processedIds, which it never reads afterwards. -/
def drainStep (cfg : EventBusConfig) (adapters : List Adapter) (nowMs : Nat)
    (acc : List QueuedEvent × BusStorage × List Call) (qe : QueuedEvent) :
    List QueuedEvent × BusStorage × List Call :=
  match qe.next_retry_at with
  | some t =>
    if nowMs < t then (qe :: acc.1, acc.2.1, acc.2.2)
    else
      let r := processEvent cfg adapters acc.2.1 qe.event nowMs
      (acc.1, r.1, acc.2.2 ++ r.2)
  | none =>
    let r := processEvent cfg adapters acc.2.1 qe.event nowMs
    (acc.1, r.1, acc.2.2 ++ r.2)

/-- EventBus.processQueuedEvents: guarded by the re-entrancy flag and the
online flag, it splices the first batchSize entries out of a local copy of
the persisted queue, processes them, and finally saveEventQueue writes the
local array back — overwriting any queue state that queueEvent persisted
while the pass ran. -/
def processQueuedEvents (cfg : EventBusConfig) (adapters : List Adapter)
    (isProcessing isOnline : Bool) (st : BusStorage) (nowMs : Nat) :
    BusStorage × List Call :=
  if isProcessing || !isOnline then (st, [])
  else
    let queue := st.eventQueue
    if queue.length = 0 then (st, [])
    else
      let batch := queue.take cfg.batchSize
      let rest := queue.drop cfg.batchSize
      let r := batch.foldl (drainStep cfg adapters nowMs) (rest, st, [])
      ({ r.2.1 with eventQueue := r.1 }, r.2.2)

/-- Repeated queueEvent over a list of events, all stamped at the same
Date.now() value: the storage effect of tracking the list while offline. -/
def enqueueAll (cfg : EventBusConfig) (nowMs : Nat) (st : BusStorage)
    (events : List EventPayload) : BusStorage :=
  events.foldl (fun s e => queueEvent cfg s e nowMs) st

/-! ## Attribution classifier and tracker
(src/lib/utils/attribution.ts and src/lib/attribution/attribution-tracker.ts) -/

/-- Attribution from src/lib/types/events.ts as produced by
createAttribution. -/
structure Attribution where
  source : Option String
  medium : Option String
  campaign : Option String
  term : Option String
  content : Option String
  referrer : Option String
  timestamp : String
deriving DecidableEq, Repr

/-- The UTM portion of parseUrlParams' result.  parseUrlParams normalizes
an empty query value to undefined with a JS or-fallback; a some value may
still be arbitrary here, and JS truthiness is applied wherever the source
tests a value. -/
structure UtmParams where
  utm_source : Option String := none
  utm_medium : Option String := none
  utm_campaign : Option String := none
  utm_term : Option String := none
  utm_content : Option String := none
deriving DecidableEq, Repr

/-- ClickIds from src/lib/types/events.ts, restricted to the four keys
extractClickIds reads. -/
structure ClickIds where
  gclid : Option String := none
  fbclid : Option String := none
  ttclid : Option String := none
  msclkid : Option String := none
deriving DecidableEq, Repr

/-- JS truthiness of a string-or-undefined value: truthy exactly when
present and nonempty. -/
def truthyStr (o : Option String) : Bool :=
  o.getD "" != ""

/-- Everything processCurrentVisit reads from the browser environment:
the parsed current URL (UTM fields and click ids), document.referrer, the
hostname the URL constructor extracts from the referrer (none when the
referrer does not parse as a URL, in which case the source's catch runs),
and window.location.hostname. -/
structure VisitContext where
  utm : UtmParams
  clickIds : ClickIds
  referrer : String
  referrerHost : Option String
  currentHost : String
deriving DecidableEq, Repr

/-- getSourceFromReferrer (src/lib/utils/attribution.ts): empty referrer is
direct; a referrer the URL constructor rejects hits the catch and yields
unknown; otherwise the lowercased hostname is matched against the platform
substrings in source order, falling back to the domain with its first www.
removed. -/
def getSourceFromReferrer (referrer : String) (referrerHost : Option String) : String :=
  if referrer = "" then "direct"
  else
    match referrerHost with
    | none => "unknown"
    | some h =>
      let domain := lowerString h
      if strIncludes domain "facebook.com" || strIncludes domain "fb.com" then "facebook"
      else if strIncludes domain "twitter.com" || strIncludes domain "x.com" then "twitter"
      else if strIncludes domain "linkedin.com" then "linkedin"
      else if strIncludes domain "youtube.com" then "youtube"
      else if strIncludes domain "instagram.com" then "instagram"
      else if strIncludes domain "tiktok.com" then "tiktok"
      else if strIncludes domain "google.com" then "google"
      else if strIncludes domain "bing.com" then "bing"
      else if strIncludes domain "yahoo.com" then "yahoo"
      else if strIncludes domain "duckduckgo.com" then "duckduckgo"
      else stripWww domain

/-- getMediumFromReferrer (src/lib/utils/attribution.ts). -/
def getMediumFromReferrer (referrer : String) (referrerHost : Option String) : String :=
  if referrer = "" then "direct"
  else
    let source := getSourceFromReferrer referrer referrerHost
    if ["google", "bing", "yahoo", "duckduckgo"].contains source then "organic"
    else if ["facebook", "twitter", "linkedin", "youtube", "instagram", "tiktok"].contains source
      then "social"
    else "referral"

/-- createAttribution (src/lib/utils/attribution.ts); now is the
toISOString timestamp. -/
def createAttribution (u : UtmParams) (referrer : Option String) (now : String) :
    Attribution :=
  { source := u.utm_source
    medium := u.utm_medium
    campaign := u.utm_campaign
    term := u.utm_term
    content := u.utm_content
    referrer := referrer
    timestamp := now }

/-- AttributionTracker.isExternalReferrer: empty referrer is false; a
referrer the URL constructor rejects hits the catch and is false; otherwise
the referrer hostname is compared with the current hostname. -/
def isExternalReferrer (ctx : VisitContext) : Bool :=
  if ctx.referrer = "" then false
  else
    match ctx.referrerHost with
    | none => false
    | some h => h != ctx.currentHost

/-- Does Object.values(clickIds).some(Boolean) hold? -/
def anyClickId (c : ClickIds) : Bool :=
  truthyStr c.gclid || truthyStr c.fbclid || truthyStr c.ttclid || truthyStr c.msclkid

/-- The attribution value processCurrentVisit builds for the current visit:
the UTM branch when utm_source, utm_medium or utm_campaign is truthy, else
the external-referrer branch, else the direct fallback (whose
createAttribution call passes no referrer). -/
def classifyVisit (ctx : VisitContext) (now : String) : Attribution :=
  if truthyStr ctx.utm.utm_source || truthyStr ctx.utm.utm_medium ||
      truthyStr ctx.utm.utm_campaign then
    createAttribution ctx.utm (some ctx.referrer) now
  else if ctx.referrer != "" && isExternalReferrer ctx then
    createAttribution
      { utm_source := some (getSourceFromReferrer ctx.referrer ctx.referrerHost)
        utm_medium := some (getMediumFromReferrer ctx.referrer ctx.referrerHost) }
      (some ctx.referrer) now
  else
    createAttribution { utm_source := some "direct", utm_medium := some "direct" } none now

/-- AttributionConfig from src/lib/attribution/attribution-tracker.ts. -/
structure AttributionConfig where
  enableCrossDomain : Bool
  sessionTimeoutMinutes : Nat
  attributionWindowDays : Nat
  overrideFirstTouch : Bool
deriving DecidableEq, Repr

/-- The attribution keys of the cross-domain store as the tracker sees
them (growth_toolkit_first_touch, growth_toolkit_last_touch,
growth_toolkit_click_ids): a read returns the stored value or null.  The
TTL envelope and the cookie mirror of the underlying store are modelled
separately with the durable keyed store below; within the attribution
window a stored value reads back unchanged. -/
structure AttrStore where
  firstTouch : Option Attribution
  lastTouch : Option Attribution
  clickIds : Option ClickIds
deriving DecidableEq, Repr

/-- AttributionTracker.processCurrentVisit: persist the click-id set when
any click id is truthy, classify the visit, write first-touch only when no
record exists or the override flag is configured, and always overwrite
last-touch. -/
def processCurrentVisit (cfg : AttributionConfig) (ctx : VisitContext)
    (now : String) (st : AttrStore) : AttrStore :=
  let st := if anyClickId ctx.clickIds then { st with clickIds := some ctx.clickIds } else st
  let attribution := classifyVisit ctx now
  let st :=
    if st.firstTouch.isNone || cfg.overrideFirstTouch then
      { st with firstTouch := some attribution }
    else st
  { st with lastTouch := some attribution }

/-! ## Durable keyed store (src/lib/utils/storage.ts) -/

/-- StorageItem from src/lib/utils/storage.ts: the TTL envelope written to
the primary store.  Times are epoch milliseconds. -/
structure StorageItem (α : Type) where
  value : α
  expires_at : Option Nat
  created_at : Nat
deriving DecidableEq, Repr

/-- What localStorage holds under a key: a well-formed serialized
StorageItem, or text JSON.parse rejects (or of the wrong shape). -/
inductive RawEntry (α : Type) where
  | good (item : StorageItem α)
  | corrupt
deriving DecidableEq, Repr

/-- The primary per-origin store behind SafeStorage.  isClient is the
typeof-window guard; failing models an environment whose localStorage
accessors throw (quota exhaustion, privacy mode). -/
structure LocalStore (α : Type) where
  entries : List (String × RawEntry α)
  isClient : Bool
  failing : Bool
deriving DecidableEq, Repr

/-- localStorage.getItem as a pure lookup over the entry list. -/
def lookupRaw {α : Type} (entries : List (String × RawEntry α)) (key : String) :
    Option (RawEntry α) :=
  (entries.find? (fun p => p.1 == key)).map (fun p => p.2)

/-- SafeStorage.removeItem: delete the key; not a client or a throwing
store makes it a caught no-op. -/
def SafeStorage.removeItem {α : Type} (st : LocalStore α) (key : String) : LocalStore α :=
  if !st.isClient || st.failing then st
  else { st with entries := st.entries.filter (fun p => p.1 != key) }

/-- SafeStorage.getItem: null off the client; a throwing store or an entry
JSON.parse rejects is caught to null; an entry whose expires_at is truthy
and in the past is removed and read as null; otherwise the stored value.
The read also returns the store because the expiry path deletes. -/
def SafeStorage.getItem {α : Type} (st : LocalStore α) (key : String) (nowMs : Nat) :
    Option α × LocalStore α :=
  if !st.isClient then (none, st)
  else if st.failing then (none, st)
  else
    match lookupRaw st.entries key with
    | none => (none, st)
    | some RawEntry.corrupt => (none, st)
    | some (RawEntry.good item) =>
      match item.expires_at with
      | some t => if t ≠ 0 ∧ t < nowMs then (none, SafeStorage.removeItem st key)
                  else (some item.value, st)
      | none => (some item.value, st)

/-- SafeStorage.setItem: write the TTL envelope (a zero ttlHours argument
is falsy and yields no expiry, like an absent one); not a client or a
throwing store makes it a caught no-op. -/
def SafeStorage.setItem {α : Type} (st : LocalStore α) (key : String) (value : α)
    (ttlHours : Option Nat) (nowMs : Nat) : LocalStore α :=
  if !st.isClient then st
  else if st.failing then st
  else
    let expires : Option Nat :=
      match ttlHours with
      | some h => if h = 0 then none else some (nowMs + h * 3600000)
      | none => none
    let item : StorageItem α := { value := value, expires_at := expires, created_at := nowMs }
    { st with entries :=
        (st.entries.filter (fun p => p.1 != key)) ++ [(key, RawEntry.good item)] }

/-- A cookie value under a key: decodes to a value, or text the catch
around decodeURIComponent/JSON.parse swallows. -/
inductive CookieVal (α : Type) where
  | good (v : α)
  | corrupt
deriving DecidableEq, Repr

/-- The dual-backend store behind CrossDomainStorage: the primary
SafeStorage plus the document cookie jar (hasDocument is the
typeof-document guard). -/
structure CrossStore (α : Type) where
  primary : LocalStore α
  cookies : List (String × CookieVal α)
  hasDocument : Bool
deriving DecidableEq, Repr

/-- CrossDomainStorage.getItem: the primary store is read first (its expiry
deletion kept), and only a null primary result falls back to the cookie
mirror; a cookie that fails to decode is caught to null. -/
def CrossDomainStorage.getItem {α : Type} (st : CrossStore α) (key : String)
    (nowMs : Nat) : Option α × CrossStore α :=
  let r := SafeStorage.getItem st.primary key nowMs
  let st' : CrossStore α := { st with primary := r.2 }
  match r.1 with
  | some v => (some v, st')
  | none =>
    if st'.hasDocument then
      match (st'.cookies.find? (fun p => p.1 == key)).map (fun p => p.2) with
      | some (CookieVal.good v) => (some v, st')
      | some CookieVal.corrupt => (none, st')
      | none => (none, st')
    else (none, st')

/-- CrossDomainStorage.setItem: always write the primary store; mirror into
the cookie jar when crossDomain is requested and a document exists. -/
def CrossDomainStorage.setItem {α : Type} (st : CrossStore α) (key : String)
    (value : α) (ttlHours : Option Nat) (nowMs : Nat) (crossDomain : Bool) :
    CrossStore α :=
  let primary := SafeStorage.setItem st.primary key value ttlHours nowMs
  let cookies :=
    if crossDomain && st.hasDocument then
      (st.cookies.filter (fun p => p.1 != key)) ++ [(key, CookieVal.good value)]
    else st.cookies
  { st with primary := primary, cookies := cookies }

/-! ## Concrete fixtures used by witnesses and counterexamples -/

/-- An adapter that consents to everything and whose track always
resolves. -/
def mockAdapter : Adapter :=
  { name := "mock-adapter", checkConsent := fun _ _ => true, trackOk := fun _ => true }

/-- An adapter that consents to everything and whose track always
rejects. -/
def failAdapter : Adapter :=
  { name := "failing", checkConsent := fun _ _ => true, trackOk := fun _ => false }

/-- A second always-resolving adapter with a distinct name. -/
def okAdapterC : Adapter :=
  { name := "adapter-c", checkConsent := fun _ _ => true, trackOk := fun _ => true }

/-- All-true consent. -/
def fullConsent : ConsentState := { analytics := true, ads := true, marketing := true }

/-- A fully formed sample event. -/
def sampleEvent : EventPayload :=
  { event_id := "e1", occurred_at := "T0", action := "page_viewed", visitor_id := "v1"
    session_id := "s1", consent := fullConsent, region := "US", dedup_id := "dd1"
    experience_id := none }

/-- A second sample event with distinct ids. -/
def sampleEvent2 : EventPayload := { sampleEvent with event_id := "e2", dedup_id := "dd2" }

/-- A third sample event with distinct ids. -/
def sampleEvent3 : EventPayload := { sampleEvent with event_id := "e3", dedup_id := "dd3" }

/-- sampleEvent waiting in the offline queue with no retry bookkeeping yet. -/
def sampleQueued : QueuedEvent :=
  { event := sampleEvent, attempts := 0, created_at := 0, next_retry_at := none }

/-- A caller-supplied input with all required fields present. -/
def sampleInput : EventInput :=
  { action := some "page_viewed", visitor_id := some "v1", session_id := some "s1"
    consent := some fullConsent, region := some "US" }

/-- A visit whose URL carries only utm_term, with no referrer. -/
def ctxTermOnly : VisitContext :=
  { utm := { utm_term := some "kw" }, clickIds := {}, referrer := ""
    referrerHost := none, currentHost := "site.example" }

/-- A visit referred from Google search with no UTM parameters. -/
def ctxGoogleReferrer : VisitContext :=
  { utm := {}, clickIds := {}, referrer := "https://www.google.com/search"
    referrerHost := some "www.google.com", currentHost := "site.example" }

/-- A direct visit: no UTM parameters and no referrer. -/
def ctxDirect : VisitContext :=
  { utm := {}, clickIds := {}, referrer := "", referrerHost := none
    currentHost := "site.example" }

/-- The claim's UTM-branch trigger following the spec's words: ANY of the
five UTM fields is present.  The source's condition tests only utm_source,
utm_medium and utm_campaign; this definition exists to be compared with the
source behavior. -/
def specAnyUtmPresent (u : UtmParams) : Bool :=
  truthyStr u.utm_source || truthyStr u.utm_medium || truthyStr u.utm_campaign ||
    truthyStr u.utm_term || truthyStr u.utm_content

/-- A concrete cross-domain store whose primary holds 7 under k and whose
cookie jar holds a conflicting 99 under k. -/
def crossStoreSample : CrossStore Nat :=
  { primary :=
      { entries := [("k", RawEntry.good { value := 7, expires_at := some 1000, created_at := 0 })]
        isClient := true, failing := false }
    cookies := [("k", CookieVal.good 99)]
    hasDocument := true }

/-- A primary store whose accessors throw. -/
def failingLocalStore : LocalStore Nat :=
  { entries := [("k", RawEntry.good { value := 7, expires_at := none, created_at := 0 })]
    isClient := true, failing := true }

/-- A bus configuration with a tiny queue capacity, for concrete eviction
scenarios. -/
def smallCfg : EventBusConfig := { defaultEventBusConfig with maxQueueSize := 2 }

/-- The canonical social platform names the classifier can produce. -/
def socialPlatformNames : List String :=
  ["facebook", "twitter", "linkedin", "youtube", "instagram", "tiktok"]

/-- The canonical search engine names the classifier can produce. -/
def searchEngineNames : List String :=
  ["google", "bing", "yahoo", "duckduckgo"]

/-- Does the lowercased referrer domain match any social-platform substring
pattern the classifier tests? -/
def matchesSocialDomain (d : String) : Bool :=
  strIncludes d "facebook.com" || strIncludes d "fb.com" ||
  strIncludes d "twitter.com" || strIncludes d "x.com" ||
  strIncludes d "linkedin.com" || strIncludes d "youtube.com" ||
  strIncludes d "instagram.com" || strIncludes d "tiktok.com"

/-- Does the lowercased referrer domain match any search-engine substring
pattern the classifier tests? -/
def matchesSearchDomain (d : String) : Bool :=
  strIncludes d "google.com" || strIncludes d "bing.com" ||
  strIncludes d "yahoo.com" || strIncludes d "duckduckgo.com"

/-! ## Theorems -/

/-- C1: for every partial event input (and any adapters, listeners, online
state and storage contents), EventBus.track resolves without raising to the
caller: the throws inside the try block (the dedup generator's btoa and the
validation failure) are caught by track's catch, and listener and adapter
failures are swallowed where they occur. -/
theorem track_never_raises (cfg : EventBusConfig) (adapters : List Adapter)
    (listeners : List Listener) (isOnline : Bool) (st : BusStorage)
    (input : EventInput) (nowIso : String) (nowMs : Nat) (fresh : String) :
    ∃ r, track cfg adapters listeners isOnline st input nowIso nowMs fresh = Except.ok r := by
  unfold track
  cases trackTry cfg adapters listeners isOnline st input nowIso nowMs fresh with
  | ok r => exact ⟨r, rfl⟩
  | error e => exact ⟨(st, []), rfl⟩

/-- C2 (code bug): tracking the empty partial event, in which action,
visitor_id and session_id are all missing, does NOT drop the event:
enrichment fills every required field with a default (the literal unknown,
a generated event id, and the btoa-derived dedup id of the key
unknown|unknown|no_experience|T0), validation passes, and the registered
adapter's track is invoked once.  This contradicts the claim and the
repository's own EventBus test (should handle invalid events), which
expects zero adapter calls for this input. -/
theorem track_missing_fields_dispatches :
    track defaultEventBusConfig [mockAdapter] [] true emptyBusStorage {} "T0" 0 "1" =
      Except.ok
        ({ emptyBusStorage with
            recentEventIds := ["dw5rbm93bnx1bmtub3dufg5vx2v4cgvyawvuy2v8vda"] },
          [Call.adapterTrack "mock-adapter"]) := by
  rfl

/-- C5 (code bug): a drain pass over a queue holding one due entry, against
a single adapter whose track rejects, leaves the persisted queue EMPTY: the
adapter failure is swallowed inside processEvent, so the drain loop's catch
(the only place attempts is incremented and next_retry_at is set) cannot
run, and the re-queue that processEvent's per-adapter catch persisted is
overwritten by the drain's final saveEventQueue.  The claim instead calls
for the entry to return to the queue with attempts 1 and
next_retry_at = 5000 + retryDelay * 1 = 7000. -/
theorem drain_drops_failed_event :
    processQueuedEvents defaultEventBusConfig [failAdapter] false true
        { emptyBusStorage with eventQueue := [sampleQueued] } 5000 =
      ({ emptyBusStorage with recentEventIds := ["dd1"] }, [Call.adapterTrack "failing"]) ∧
    (processQueuedEvents defaultEventBusConfig [failAdapter] false true
        { emptyBusStorage with eventQueue := [sampleQueued] } 5000).1.eventQueue ≠
      [{ event := sampleEvent, attempts := 1, created_at := 0, next_retry_at := some 7000 }] := by
  exact ⟨rfl, by decide⟩

/-- Helper: filling a queue that has room appends the events in order. -/
theorem enqueueAll_fill (cfg : EventBusConfig) (nowMs : Nat) (evs : List EventPayload) :
    ∀ st : BusStorage,
      st.eventQueue.length + evs.length ≤ cfg.maxQueueSize →
      (enqueueAll cfg nowMs st evs).eventQueue =
        st.eventQueue ++ evs.map (fun e =>
          ({ event := e, attempts := 0, created_at := nowMs, next_retry_at := none } :
            QueuedEvent)) := by
  induction evs with
  | nil => intro st _; simp [enqueueAll]
  | cons e evs ih =>
    intro st h
    have hlt : ¬ cfg.maxQueueSize ≤ st.eventQueue.length := by
      simp only [List.length_cons] at h; omega
    have step : (queueEvent cfg st e nowMs).eventQueue =
        st.eventQueue ++
          [({ event := e, attempts := 0, created_at := nowMs, next_retry_at := none } :
            QueuedEvent)] := by
      simp [queueEvent, if_neg hlt]
    have hrec : enqueueAll cfg nowMs st (e :: evs) =
        enqueueAll cfg nowMs (queueEvent cfg st e nowMs) evs := rfl
    rw [hrec, ih _ (by
      rw [step]
      simp only [List.length_append, List.length_cons, List.length_nil] at h ⊢
      omega)]
    rw [step]
    simp

/-- Helper: a push onto a full queue evicts the oldest entry. -/
theorem queueEvent_full (cfg : EventBusConfig) (st : BusStorage) (e : EventPayload)
    (nowMs : Nat) (h : cfg.maxQueueSize ≤ st.eventQueue.length) :
    (queueEvent cfg st e nowMs).eventQueue =
      st.eventQueue.tail ++
        [({ event := e, attempts := 0, created_at := nowMs, next_retry_at := none } :
          QueuedEvent)] := by
  simp [queueEvent, if_pos h]

/-- Helper: queueEvent preserves the queue-length bound. -/
theorem queueEvent_len_le (cfg : EventBusConfig) (st : BusStorage) (e : EventPayload)
    (nowMs : Nat) (hm : 1 ≤ cfg.maxQueueSize)
    (h : st.eventQueue.length ≤ cfg.maxQueueSize) :
    (queueEvent cfg st e nowMs).eventQueue.length ≤ cfg.maxQueueSize := by
  simp only [queueEvent]
  split
  · simp only [List.length_append, List.length_tail, List.length_cons, List.length_nil]
    omega
  · rename_i hlt
    simp only [List.length_append, List.length_cons, List.length_nil]
    omega

/-- Helper: the bound is preserved along any enqueue sequence. -/
theorem enqueueAll_len_le (cfg : EventBusConfig) (nowMs : Nat)
    (hm : 1 ≤ cfg.maxQueueSize) (evs : List EventPayload) :
    ∀ st : BusStorage, st.eventQueue.length ≤ cfg.maxQueueSize →
      (enqueueAll cfg nowMs st evs).eventQueue.length ≤ cfg.maxQueueSize := by
  induction evs with
  | nil => intro st h; simpa [enqueueAll] using h
  | cons e evs ih =>
    intro st h
    exact ih (queueEvent cfg st e nowMs) (queueEvent_len_le cfg st e nowMs hm h)

/-- C6: under a positive capacity, the offline queue length never exceeds
maxQueueSize — one queueEvent preserves the bound, so any offline enqueue
sequence from fresh storage stays bounded — and enqueuing maxQueueSize + 1
events into fresh storage retains exactly the last maxQueueSize of them:
the oldest is evicted. -/
theorem offline_queue_bounded (cfg : EventBusConfig) (nowMs : Nat)
    (hm : 1 ≤ cfg.maxQueueSize) :
    (∀ (st : BusStorage) (e : EventPayload),
        st.eventQueue.length ≤ cfg.maxQueueSize →
        (queueEvent cfg st e nowMs).eventQueue.length ≤ cfg.maxQueueSize) ∧
    (∀ evs : List EventPayload,
        (enqueueAll cfg nowMs emptyBusStorage evs).eventQueue.length ≤ cfg.maxQueueSize) ∧
    (∀ (evs : List EventPayload) (e : EventPayload),
        evs.length = cfg.maxQueueSize →
        (enqueueAll cfg nowMs emptyBusStorage (evs ++ [e])).eventQueue.map QueuedEvent.event =
          evs.drop 1 ++ [e]) := by
  refine ⟨fun st e h => queueEvent_len_le cfg st e nowMs hm h,
    fun evs => enqueueAll_len_le cfg nowMs hm evs emptyBusStorage (by simp [emptyBusStorage]),
    fun evs e hlen => ?_⟩
  have hsplit : enqueueAll cfg nowMs emptyBusStorage (evs ++ [e]) =
      queueEvent cfg (enqueueAll cfg nowMs emptyBusStorage evs) e nowMs := by
    simp [enqueueAll, List.foldl_append]
  have hfill := enqueueAll_fill cfg nowMs evs emptyBusStorage
    (by simp [emptyBusStorage, hlen])
  have hfull : cfg.maxQueueSize ≤
      (enqueueAll cfg nowMs emptyBusStorage evs).eventQueue.length := by
    rw [hfill]; simp [emptyBusStorage, hlen]
  rw [hsplit, queueEvent_full cfg _ e nowMs hfull, hfill]
  have hcomp : (QueuedEvent.event ∘ fun e : EventPayload =>
      ({ event := e, attempts := 0, created_at := nowMs, next_retry_at := none } : QueuedEvent)) =
      id := rfl
  simp [hcomp, List.drop_one, emptyBusStorage]

/-- C6 witness: with capacity 2, enqueuing three events while offline
leaves exactly the last two, the oldest evicted. -/
theorem offline_queue_bounded_witness :
    (enqueueAll smallCfg 0 emptyBusStorage
        ([sampleEvent, sampleEvent2] ++ [sampleEvent3])).eventQueue.map QueuedEvent.event =
      [sampleEvent2, sampleEvent3] := by
  have h := (offline_queue_bounded smallCfg 0 (by decide)).2.2 [sampleEvent, sampleEvent2]
    sampleEvent3 (by decide)
  simpa using h

/-- Helper: one markEventProcessed call preserves the 100-entry bound. -/
theorem markEventProcessed_len_le (st : BusStorage) (dedupId : String)
    (h : st.recentEventIds.length ≤ 100) :
    (markEventProcessed st dedupId).recentEventIds.length ≤ 100 := by
  simp only [markEventProcessed]
  split
  · simp only [List.length_tail, List.length_append, List.length_cons, List.length_nil]
    omega
  · rename_i hgt
    simp only [List.length_append, List.length_cons, List.length_nil] at hgt ⊢
    omega

/-- Helper: markEventProcessed ends the buffer with the new dedup key. -/
theorem markEventProcessed_last (st : BusStorage) (dedupId : String) :
    (markEventProcessed st dedupId).recentEventIds.getLast? = some dedupId := by
  simp only [markEventProcessed]
  split
  · rename_i hgt
    cases hrec : st.recentEventIds with
    | nil => simp [hrec] at hgt
    | cons a l => simp [List.cons_append, List.tail_cons, List.getLast?_concat]
  · simp [List.getLast?_concat]

/-- Helper: the bound holds along any processed-event sequence. -/
theorem foldl_mark_len_le (ids : List String) :
    ∀ st : BusStorage, st.recentEventIds.length ≤ 100 →
      (ids.foldl markEventProcessed st).recentEventIds.length ≤ 100 := by
  induction ids with
  | nil => intro st h; simpa using h
  | cons i ids ih => intro st h; exact ih _ (markEventProcessed_len_le st i h)

/-- C10: the recent-dedup-id buffer never holds more than 100 entries:
each markEventProcessed call appends the new dedup key at the end and,
when the length exceeds 100, evicts the oldest entry, so after any sequence
of processed events starting from fresh storage the buffer length is at
most 100. -/
theorem recent_buffer_bounded :
    (∀ (st : BusStorage) (dedupId : String), st.recentEventIds.length ≤ 100 →
        (markEventProcessed st dedupId).recentEventIds.length ≤ 100 ∧
        (markEventProcessed st dedupId).recentEventIds.getLast? = some dedupId) ∧
    (∀ ids : List String,
        (ids.foldl markEventProcessed emptyBusStorage).recentEventIds.length ≤ 100) := by
  exact ⟨fun st d h => ⟨markEventProcessed_len_le st d h, markEventProcessed_last st d⟩,
    fun ids => foldl_mark_len_le ids emptyBusStorage (by simp [emptyBusStorage])⟩

/-- C10 witness: one processed event from fresh storage. -/
theorem recent_buffer_bounded_witness :
    (markEventProcessed emptyBusStorage "dd1").recentEventIds.length ≤ 100 ∧
    (markEventProcessed emptyBusStorage "dd1").recentEventIds.getLast? = some "dd1" :=
  recent_buffer_bounded.1 emptyBusStorage "dd1" (by decide)

/-- C7: with overrideFirstTouch false, processCurrentVisit never changes an
existing first-touch record (it writes first-touch only when no record
exists), while the last-touch record is unconditionally overwritten with
the current visit's attribution on every call. -/
theorem first_touch_write_rules (cfg : AttributionConfig) (ctx : VisitContext)
    (now : String) (st : AttrStore) (hov : cfg.overrideFirstTouch = false) :
    (∀ a : Attribution, st.firstTouch = some a →
        (processCurrentVisit cfg ctx now st).firstTouch = some a) ∧
    (st.firstTouch = none →
        (processCurrentVisit cfg ctx now st).firstTouch = some (classifyVisit ctx now)) ∧
    (processCurrentVisit cfg ctx now st).lastTouch = some (classifyVisit ctx now) := by
  refine ⟨fun a ha => ?_, fun hn => ?_, ?_⟩ <;>
    simp only [processCurrentVisit, hov] <;>
    split <;>
    simp_all

/-- C7 witness: a second visit with different UTM values leaves the stored
first touch as it was while last touch takes the new classification. -/
theorem first_touch_write_rules_witness :
    (processCurrentVisit
        { enableCrossDomain := true, sessionTimeoutMinutes := 30,
          attributionWindowDays := 30, overrideFirstTouch := false }
        ctxGoogleReferrer "T1"
        { firstTouch := some (classifyVisit ctxDirect "T0"), lastTouch := some (classifyVisit ctxDirect "T0"),
          clickIds := none }).firstTouch = some (classifyVisit ctxDirect "T0") ∧
    (processCurrentVisit
        { enableCrossDomain := true, sessionTimeoutMinutes := 30,
          attributionWindowDays := 30, overrideFirstTouch := false }
        ctxGoogleReferrer "T1"
        { firstTouch := some (classifyVisit ctxDirect "T0"), lastTouch := some (classifyVisit ctxDirect "T0"),
          clickIds := none }).lastTouch = some (classifyVisit ctxGoogleReferrer "T1") := by
  have h := first_touch_write_rules
    { enableCrossDomain := true, sessionTimeoutMinutes := 30,
      attributionWindowDays := 30, overrideFirstTouch := false }
    ctxGoogleReferrer "T1"
    { firstTouch := some (classifyVisit ctxDirect "T0"), lastTouch := some (classifyVisit ctxDirect "T0"),
      clickIds := none } rfl
  exact ⟨h.1 (classifyVisit ctxDirect "T0") rfl, h.2.2⟩

/-- C9: for the durable keyed store, a primary-store hit is returned
without consulting the cookie mirror; an entry found expired on a primary
read is actively deleted and read as absent; and a throwing primary store
is caught, making reads absent and writes no-ops. -/
theorem durable_store_read_policy {α : Type} (st : CrossStore α) (key : String)
    (nowMs : Nat) :
    (∀ (v : α) (p' : LocalStore α),
        SafeStorage.getItem st.primary key nowMs = (some v, p') →
        CrossDomainStorage.getItem st key nowMs = (some v, { st with primary := p' })) ∧
    (∀ (item : StorageItem α) (t : Nat),
        st.primary.isClient = true → st.primary.failing = false →
        lookupRaw st.primary.entries key = some (RawEntry.good item) →
        item.expires_at = some t → t ≠ 0 → t < nowMs →
        SafeStorage.getItem st.primary key nowMs =
          (none, { st.primary with
            entries := st.primary.entries.filter (fun p => p.1 != key) })) ∧
    (st.primary.failing = true →
        SafeStorage.getItem st.primary key nowMs = (none, st.primary) ∧
        ∀ (v : α) (ttl : Option Nat),
          SafeStorage.setItem st.primary key v ttl nowMs = st.primary) ∧
    (lookupRaw st.primary.entries key = some RawEntry.corrupt →
        (SafeStorage.getItem st.primary key nowMs).1 = none) ∧
    (∀ (p' : LocalStore α) (v : α),
        SafeStorage.getItem st.primary key nowMs = (none, p') →
        st.hasDocument = true →
        (st.cookies.find? (fun p => p.1 == key)).map (fun p => p.2) = some (CookieVal.good v) →
        CrossDomainStorage.getItem st key nowMs = (some v, { st with primary := p' })) := by
  refine ⟨fun v p' hget => ?_, fun item t hc hf hlook hexp ht hnow => ?_, fun hfail => ?_,
    fun hlook => ?_, fun p' v hget hdoc hcook => ?_⟩
  · simp [CrossDomainStorage.getItem, hget]
  · simp [SafeStorage.getItem, SafeStorage.removeItem, hc, hf, hlook, hexp, ht, hnow]
  · constructor
    · simp [SafeStorage.getItem, hfail]
    · intro v ttl
      simp [SafeStorage.setItem, hfail]
  · simp only [SafeStorage.getItem]
    split
    · rfl
    · split
      · rfl
      · rw [hlook]
  · simp [CrossDomainStorage.getItem, hget, hdoc, hcook]

/-- C9 witness: a primary hit of 7 wins over a conflicting cookie value; a
throwing primary makes getItem absent and setItem a no-op. -/
theorem durable_store_read_policy_witness :
    CrossDomainStorage.getItem crossStoreSample "k" 10 = (some 7, crossStoreSample) ∧
    SafeStorage.getItem failingLocalStore "k" 10 = (none, failingLocalStore) ∧
    SafeStorage.setItem failingLocalStore "k" 5 (some 1) 10 = failingLocalStore := by
  have h := durable_store_read_policy crossStoreSample "k" 10
  have h2 := durable_store_read_policy
    ({ primary := failingLocalStore, cookies := [], hasDocument := false } : CrossStore Nat) "k" 10
  exact ⟨h.1 7 crossStoreSample.primary (by decide), (h2.2.2.1 rfl).1,
    (h2.2.2.1 rfl).2 5 (some 1)⟩

/-- Helper: with every adapter consenting, the dispatch pass records
exactly one track call per adapter, in registration order, whether or not
the individual calls resolve. -/
theorem foldl_step_calls (cfg : EventBusConfig) (e : EventPayload) (nowMs : Nat) :
    ∀ (l : List Adapter) (st : BusStorage) (cs : List Call),
      (∀ a ∈ l, a.checkConsent e.consent e.region = true) →
      (l.foldl (processEventStep cfg e nowMs) (st, cs)).2 =
        cs ++ l.map (fun a => Call.adapterTrack a.name) := by
  intro l
  induction l with
  | nil => intro st cs _; simp
  | cons a l ih =>
    intro st cs h
    have ha := h a (List.mem_cons_self a l)
    have hrest := fun b hb => h b (List.mem_cons_of_mem a hb)
    simp only [List.foldl_cons, processEventStep, ha, if_true]
    by_cases ht : a.trackOk e = true
    · simp only [ht, if_true]
      rw [ih _ _ hrest]
      simp
    · simp only [if_neg ht]
      rw [ih _ _ hrest]
      simp

/-- Helper: a dispatch pass in which every adapter's track resolves leaves
the storage unchanged. -/
theorem foldl_step_storage_ok (cfg : EventBusConfig) (e : EventPayload) (nowMs : Nat) :
    ∀ (l : List Adapter) (st : BusStorage) (cs : List Call),
      (∀ a ∈ l, a.trackOk e = true) →
      (l.foldl (processEventStep cfg e nowMs) (st, cs)).1 = st := by
  intro l
  induction l with
  | nil => intro st cs _; simp
  | cons a l ih =>
    intro st cs h
    have ha := h a (List.mem_cons_self a l)
    have hrest := fun b hb => h b (List.mem_cons_of_mem a hb)
    simp only [List.foldl_cons, processEventStep, ha, if_true]
    by_cases hc : a.checkConsent e.consent e.region = true
    · simp only [hc, if_true]
      exact ih _ _ hrest
    · simp only [if_neg hc]
      exact ih _ _ hrest

/-- Helper: the Call.adapterTrack constructor is injective. -/
theorem adapterTrack_injective : Function.Injective Call.adapterTrack := by
  intro x y h
  injection h

/-- C3: in a dispatch pass over pre ++ bad :: post where every adapter
consents, every adapter in pre and post resolves and bad's track rejects,
every registered adapter (bad included) is invoked exactly once, and with
the offline queue enabled the failing call causes the event to be appended
to the persisted queue (evicting the oldest entry if at capacity). -/
theorem adapter_failure_isolated (cfg : EventBusConfig) (pre post : List Adapter)
    (bad : Adapter) (st : BusStorage) (e : EventPayload) (nowMs : Nat)
    (hcons : ∀ a ∈ pre ++ bad :: post, a.checkConsent e.consent e.region = true)
    (hpre : ∀ a ∈ pre, a.trackOk e = true)
    (hpost : ∀ a ∈ post, a.trackOk e = true)
    (hbad : bad.trackOk e = false)
    (hnames : ((pre ++ bad :: post).map Adapter.name).Nodup)
    (hq : cfg.enableOfflineQueue = true) :
    (∀ a ∈ pre ++ bad :: post,
        (processEvent cfg (pre ++ bad :: post) st e nowMs).2.count
          (Call.adapterTrack a.name) = 1) ∧
    (processEvent cfg (pre ++ bad :: post) st e nowMs).1.eventQueue =
      (if cfg.maxQueueSize ≤ st.eventQueue.length then st.eventQueue.tail else st.eventQueue)
        ++ [{ event := e, attempts := 0, created_at := nowMs, next_retry_at := none }] := by
  constructor
  · intro a hamem
    have hcalls : (processEvent cfg (pre ++ bad :: post) st e nowMs).2 =
        (pre ++ bad :: post).map (fun a => Call.adapterTrack a.name) := by
      simp only [processEvent]
      rw [foldl_step_calls cfg e nowMs _ st [] hcons]
      simp
    rw [hcalls]
    have hremap : (pre ++ bad :: post).map (fun a => Call.adapterTrack a.name) =
        ((pre ++ bad :: post).map Adapter.name).map Call.adapterTrack := by
      rw [List.map_map]
      rfl
    rw [hremap, List.count_map_of_injective _ Call.adapterTrack adapterTrack_injective]
    exact List.count_eq_one_of_mem hnames (List.mem_map_of_mem Adapter.name hamem)
  · have key : ∀ (s : BusStorage) (cs : List Call),
        ((bad :: post).foldl (processEventStep cfg e nowMs) (s, cs)).1 =
          queueEvent cfg s e nowMs := by
      intro s cs
      have hbadc := hcons bad (by simp)
      simp only [List.foldl_cons, processEventStep, hbadc, if_true, hbad, Bool.false_eq_true,
        if_false, hq]
      exact foldl_step_storage_ok cfg e nowMs post _ _ hpost
    have hfold1 : ((pre ++ bad :: post).foldl (processEventStep cfg e nowMs) (st, [])).1 =
        queueEvent cfg st e nowMs := by
      rw [List.foldl_append]
      rcases hpp : pre.foldl (processEventStep cfg e nowMs) (st, []) with ⟨s1, cs1⟩
      have hs1 : s1 = st := by
        have h := foldl_step_storage_ok cfg e nowMs pre st [] hpre
        rw [hpp] at h
        exact h
      rw [hs1]
      exact key st cs1
    simp only [processEvent, markEventProcessed]
    rw [hfold1]
    simp [queueEvent]

/-- C3 witness: of three consenting adapters where the middle one rejects,
each is invoked exactly once and the event lands in the offline queue. -/
theorem adapter_failure_isolated_witness :
    (processEvent defaultEventBusConfig [mockAdapter, failAdapter, okAdapterC]
        emptyBusStorage sampleEvent 0).2.count (Call.adapterTrack "mock-adapter") = 1 ∧
    (processEvent defaultEventBusConfig [mockAdapter, failAdapter, okAdapterC]
        emptyBusStorage sampleEvent 0).2.count (Call.adapterTrack "adapter-c") = 1 ∧
    (processEvent defaultEventBusConfig [mockAdapter, failAdapter, okAdapterC]
        emptyBusStorage sampleEvent 0).1.eventQueue =
      [{ event := sampleEvent, attempts := 0, created_at := 0, next_retry_at := none }] := by
  have h := adapter_failure_isolated defaultEventBusConfig [mockAdapter] [okAdapterC]
    failAdapter emptyBusStorage sampleEvent 0
    (by
      intro a ha
      simp only [List.cons_append, List.nil_append, List.mem_cons, List.not_mem_nil,
        or_false] at ha
      rcases ha with rfl | rfl | rfl <;> rfl)
    (by
      intro a ha
      simp only [List.mem_singleton] at ha
      subst ha
      rfl)
    (by
      intro a ha
      simp only [List.mem_singleton] at ha
      subst ha
      rfl)
    rfl
    (by decide)
    rfl
  refine ⟨?_, ?_, ?_⟩
  · exact h.1 mockAdapter (by simp)
  · exact h.1 okAdapterC (by simp)
  · have h2 := h.2
    simpa [emptyBusStorage] using h2

/-- Helper: queueEvent touches only the persisted queue. -/
theorem queueEvent_only_queue (cfg : EventBusConfig) (st : BusStorage)
    (e : EventPayload) (nowMs : Nat) :
    (queueEvent cfg st e nowMs).recentEventIds = st.recentEventIds ∧
    (queueEvent cfg st e nowMs).visitorId = st.visitorId ∧
    (queueEvent cfg st e nowMs).sessionId = st.sessionId := by
  refine ⟨rfl, rfl, rfl⟩

/-- Helper: the adapter fold touches only the persisted queue. -/
theorem foldl_step_only_queue (cfg : EventBusConfig) (e : EventPayload) (nowMs : Nat) :
    ∀ (l : List Adapter) (st : BusStorage) (cs : List Call),
      (l.foldl (processEventStep cfg e nowMs) (st, cs)).1.recentEventIds = st.recentEventIds ∧
      (l.foldl (processEventStep cfg e nowMs) (st, cs)).1.visitorId = st.visitorId ∧
      (l.foldl (processEventStep cfg e nowMs) (st, cs)).1.sessionId = st.sessionId := by
  intro l
  induction l with
  | nil => intro st cs; exact ⟨rfl, rfl, rfl⟩
  | cons a l ih =>
    intro st cs
    simp only [List.foldl_cons, processEventStep]
    by_cases hc : a.checkConsent e.consent e.region = true
    · simp only [hc, if_true]
      by_cases ht : a.trackOk e = true
      · simp only [ht, if_true]
        exact ih st (cs ++ [Call.adapterTrack a.name])
      · simp only [if_neg ht]
        by_cases hq : cfg.enableOfflineQueue = true
        · simp only [hq, if_true]
          have h1 := ih (queueEvent cfg st e nowMs) (cs ++ [Call.adapterTrack a.name])
          have h2 := queueEvent_only_queue cfg st e nowMs
          exact ⟨h1.1.trans h2.1, h1.2.1.trans h2.2.1, h1.2.2.trans h2.2.2⟩
        · simp only [if_neg hq]
          exact ih st (cs ++ [Call.adapterTrack a.name])
    · simp only [if_neg hc]
      exact ih st cs

/-- Helper: the dedup buffer after a dispatch pass is the input buffer with
the event's dedup id recorded, and the identity keys are preserved. -/
theorem processEvent_storage_shape (cfg : EventBusConfig) (adapters : List Adapter)
    (st : BusStorage) (e : EventPayload) (nowMs : Nat) :
    (processEvent cfg adapters st e nowMs).1.recentEventIds =
      (markEventProcessed st e.dedup_id).recentEventIds ∧
    (processEvent cfg adapters st e nowMs).1.visitorId = st.visitorId ∧
    (processEvent cfg adapters st e nowMs).1.sessionId = st.sessionId := by
  have h := foldl_step_only_queue cfg e nowMs adapters st []
  simp only [processEvent, markEventProcessed]
  exact ⟨by rw [h.1], h.2.1, h.2.2⟩

/-- Helper: the recorded dedup id is a member of the updated buffer. -/
theorem dedup_mem_marked (st : BusStorage) (d : String) :
    d ∈ (markEventProcessed st d).recentEventIds := by
  apply List.mem_of_mem_getLast?
  rw [markEventProcessed_last st d]
  exact Option.mem_def.mpr rfl

/-- Helper: a generated event id is nonempty. -/
theorem generateEventId_ne (fresh : String) : generateEventId fresh ≠ "" := by
  intro h
  have h2 : (generateEventId fresh).length = 0 := by rw [h]; rfl
  rw [generateEventId, String.length_append] at h2
  have h3 : "event_".length = 6 := rfl
  omega

/-- Helper: with a truthy timestamp, the dedup id does not consult the
Date.now fallback string. -/
theorem generateDedupId_fallback_free (v a : String) (x : Option String)
    (t ms ms' : String) (ht : ¬ t = "") :
    generateDedupId v a x t ms = generateDedupId v a x t ms' := by
  simp only [generateDedupId, if_neg ht]

/-- The spread-object field values (definitional). -/
@[simp] theorem enrichBase_event_id (st : BusStorage) (nowIso fresh : String)
    (input : EventInput) :
    (enrichBase st nowIso fresh input).event_id =
      input.event_id.getD (generateEventId fresh) := rfl

/-- The spread-object field values (definitional). -/
@[simp] theorem enrichBase_occurred_at (st : BusStorage) (nowIso fresh : String)
    (input : EventInput) :
    (enrichBase st nowIso fresh input).occurred_at = input.occurred_at.getD nowIso := rfl

/-- The spread-object field values (definitional). -/
@[simp] theorem enrichBase_action (st : BusStorage) (nowIso fresh : String)
    (input : EventInput) :
    (enrichBase st nowIso fresh input).action = input.action.getD "unknown" := rfl

/-- The spread-object field values (definitional). -/
@[simp] theorem enrichBase_visitor_id (st : BusStorage) (nowIso fresh : String)
    (input : EventInput) :
    (enrichBase st nowIso fresh input).visitor_id =
      input.visitor_id.getD (busGetVisitorId st) := rfl

/-- The spread-object field values (definitional). -/
@[simp] theorem enrichBase_session_id (st : BusStorage) (nowIso fresh : String)
    (input : EventInput) :
    (enrichBase st nowIso fresh input).session_id =
      input.session_id.getD (busGetSessionId st) := rfl

/-- The spread-object field values (definitional). -/
@[simp] theorem enrichBase_experience_id (st : BusStorage) (nowIso fresh : String)
    (input : EventInput) :
    (enrichBase st nowIso fresh input).experience_id = input.experience_id := rfl

/-- Helper: opening a successful enrichment: the dedup generator succeeded
on the spread-object fields and the event is the spread object carrying the
generated id. -/
theorem enrich_ok_elim (st : BusStorage) (nowIso ms fresh : String)
    (input : EventInput) (e : EventPayload)
    (henr : enrichEvent st nowIso ms fresh input = Except.ok e) :
    ∃ d, generateDedupId (input.visitor_id.getD (busGetVisitorId st))
        (input.action.getD "unknown") input.experience_id
        (input.occurred_at.getD nowIso) ms = Except.ok d ∧
      e = { enrichBase st nowIso fresh input with dedup_id := d } := by
  simp only [enrichEvent, enrichBase_visitor_id, enrichBase_action,
    enrichBase_experience_id, enrichBase_occurred_at] at henr
  cases hg : generateDedupId (input.visitor_id.getD (busGetVisitorId st))
      (input.action.getD "unknown") input.experience_id
      (input.occurred_at.getD nowIso) ms with
  | ok d =>
    simp only [hg] at henr
    exact ⟨d, rfl, (Except.ok.inj henr).symm⟩
  | error er =>
    simp only [hg] at henr
    exact Except.noConfusion henr

/-- Helper: re-enriching the same input from a storage state with the same
visitor and session keys, under a new generated id and clock, yields the
same event up to its event_id (the dedup id in particular is unchanged). -/
theorem enrich_second (st st' : BusStorage) (nowIso ms ms' fresh fresh' : String)
    (input : EventInput) (e : EventPayload)
    (hv : st'.visitorId = st.visitorId) (hs : st'.sessionId = st.sessionId)
    (hocc : ¬ input.occurred_at.getD nowIso = "")
    (henr : enrichEvent st nowIso ms fresh input = Except.ok e) :
    enrichEvent st' nowIso ms' fresh' input =
      Except.ok { e with event_id := input.event_id.getD (generateEventId fresh') } := by
  obtain ⟨d, hg, he⟩ := enrich_ok_elim st nowIso ms fresh input e henr
  subst he
  have hbv : busGetVisitorId st' = busGetVisitorId st := by
    unfold busGetVisitorId; rw [hv]
  have hbs : busGetSessionId st' = busGetSessionId st := by
    unfold busGetSessionId; rw [hs]
  have hg' : generateDedupId (input.visitor_id.getD (busGetVisitorId st'))
      (input.action.getD "unknown") input.experience_id
      (input.occurred_at.getD nowIso) ms' = Except.ok d := by
    rw [hbv, generateDedupId_fallback_free _ _ _ _ ms' ms hocc]
    exact hg
  simp only [enrichEvent, enrichBase_visitor_id, enrichBase_action,
    enrichBase_experience_id, enrichBase_occurred_at, hg']
  unfold enrichBase
  rw [hbv, hbs]

/-- Helper: validity transfers to the re-enriched event: the fresh event
id is nonempty whether generated or caller-supplied, and the other required
fields are unchanged. -/
theorem validate_second (input : EventInput) (fresh fresh' : String) (e : EventPayload)
    (hid0 : e.event_id = input.event_id.getD (generateEventId fresh))
    (hval : validateEvent e = true) :
    validateEvent { e with event_id := input.event_id.getD (generateEventId fresh') } = true := by
  simp only [validateEvent, Bool.and_eq_true, bne_iff_ne, ne_eq] at hval ⊢
  obtain ⟨⟨⟨⟨hid, hact⟩, hvis⟩, hses⟩, hded⟩ := hval
  refine ⟨⟨⟨⟨?_, hact⟩, hvis⟩, hses⟩, hded⟩
  cases hin : input.event_id with
  | none => simp only [Option.getD_none]; exact generateEventId_ne fresh'
  | some v =>
    rw [hid0, hin] at hid
    simp only [Option.getD_some] at hid ⊢
    exact hid

/-- Helper: the value of track on a valid, non-duplicate enriched event
while online. -/
theorem track_eq_online (cfg : EventBusConfig) (adapters : List Adapter)
    (listeners : List Listener) (st : BusStorage) (input : EventInput)
    (nowIso : String) (nowMs : Nat) (fresh : String) (e : EventPayload)
    (henr : enrichEvent st nowIso (toString nowMs) fresh input = Except.ok e)
    (hval : validateEvent e = true) (hdup : isDuplicate st e = false) :
    track cfg adapters listeners true st input nowIso nowMs fresh =
      Except.ok ((processEvent cfg adapters st e nowMs).1,
        notifyListeners listeners e ++ (processEvent cfg adapters st e nowMs).2) := by
  simp [track, trackTry, henr, hval, hdup]

/-- Helper: the value of track on a valid enriched event whose dedup id is
already in the buffer: an early return with no calls and no state change. -/
theorem track_eq_dup (cfg : EventBusConfig) (adapters : List Adapter)
    (listeners : List Listener) (isOnline : Bool) (st : BusStorage)
    (input : EventInput) (nowIso : String) (nowMs : Nat) (fresh : String)
    (e : EventPayload)
    (henr : enrichEvent st nowIso (toString nowMs) fresh input = Except.ok e)
    (hval : validateEvent e = true) (hdup : isDuplicate st e = true) :
    track cfg adapters listeners isOnline st input nowIso nowMs fresh =
      Except.ok (st, []) := by
  simp [track, trackTry, henr, hval, hdup]

/-- Helper: the value of track on a valid, non-duplicate enriched event
while offline with the queue enabled. -/
theorem track_eq_offline (cfg : EventBusConfig) (adapters : List Adapter)
    (listeners : List Listener) (st : BusStorage) (input : EventInput)
    (nowIso : String) (nowMs : Nat) (fresh : String) (e : EventPayload)
    (henr : enrichEvent st nowIso (toString nowMs) fresh input = Except.ok e)
    (hval : validateEvent e = true) (hdup : isDuplicate st e = false)
    (hq : cfg.enableOfflineQueue = true) :
    track cfg adapters listeners false st input nowIso nowMs fresh =
      Except.ok (queueEvent cfg st e nowMs, notifyListeners listeners e) := by
  simp [track, trackTry, henr, hval, hdup, hq]

/-- C4: for an input that enriches to a valid event with a truthy
occurred_at, (a) a track call whose dedup key is in the rolling buffer is
suppressed with no listener notification, no adapter invocation and no
state change; (b) an online dispatch records the dedup key into the buffer
(only after the dispatch attempt, which markEventProcessed ends), and an
identical second call from the resulting state — same input and timestamp,
any fresh generated event id and clock — returns with no calls, so the
adapter invocation count stays at the first call's count; (c) the offline
queue path makes no dispatch attempt and records nothing into the dedup
buffer. -/
theorem dedup_suppresses_second (cfg : EventBusConfig) (adapters : List Adapter)
    (listeners : List Listener) (st : BusStorage) (input : EventInput)
    (nowIso : String) (nowMs : Nat) (fresh : String) (e : EventPayload)
    (henr : enrichEvent st nowIso (toString nowMs) fresh input = Except.ok e)
    (hval : validateEvent e = true)
    (hocc : ¬ input.occurred_at.getD nowIso = "") :
    (∀ isOnline : Bool, isDuplicate st e = true →
        track cfg adapters listeners isOnline st input nowIso nowMs fresh =
          Except.ok (st, [])) ∧
    (isDuplicate st e = false →
        ∀ (st₁ : BusStorage) (calls₁ : List Call),
          track cfg adapters listeners true st input nowIso nowMs fresh =
            Except.ok (st₁, calls₁) →
          e.dedup_id ∈ st₁.recentEventIds ∧
          ∀ (fresh₂ : String) (nowMs₂ : Nat),
            track cfg adapters listeners true st₁ input nowIso nowMs₂ fresh₂ =
              Except.ok (st₁, [])) ∧
    (isDuplicate st e = false → cfg.enableOfflineQueue = true →
        ∀ (st₂ : BusStorage) (calls₂ : List Call),
          track cfg adapters listeners false st input nowIso nowMs fresh =
            Except.ok (st₂, calls₂) →
          st₂.recentEventIds = st.recentEventIds) := by
  refine ⟨fun isOnline hdup =>
      track_eq_dup cfg adapters listeners isOnline st input nowIso nowMs fresh e henr hval hdup,
    fun hdup st₁ calls₁ htrack => ?_, fun hdup hq st₂ calls₂ htrack => ?_⟩
  · have heq := track_eq_online cfg adapters listeners st input nowIso nowMs fresh e
      henr hval hdup
    rw [htrack] at heq
    have hpair := Except.ok.inj heq
    have hst₁ : st₁ = (processEvent cfg adapters st e nowMs).1 :=
      congrArg Prod.fst hpair
    have hshape := processEvent_storage_shape cfg adapters st e nowMs
    constructor
    · rw [hst₁, hshape.1]
      exact dedup_mem_marked st e.dedup_id
    · intro fresh₂ nowMs₂
      have hv : st₁.visitorId = st.visitorId := by rw [hst₁]; exact hshape.2.1
      have hs : st₁.sessionId = st.sessionId := by rw [hst₁]; exact hshape.2.2
      have henr₂ := enrich_second st st₁ nowIso (toString nowMs) (toString nowMs₂)
        fresh fresh₂ input e hv hs hocc henr
      have hid0 : e.event_id = input.event_id.getD (generateEventId fresh) := by
        obtain ⟨d, -, he⟩ := enrich_ok_elim st nowIso (toString nowMs) fresh input e henr
        rw [he]
        simp
      have hval₂ := validate_second input fresh fresh₂ e hid0 hval
      have hmem : ({ e with event_id := input.event_id.getD (generateEventId fresh₂) } :
          EventPayload).dedup_id ∈ st₁.recentEventIds := by
        show e.dedup_id ∈ st₁.recentEventIds
        rw [hst₁, hshape.1]
        exact dedup_mem_marked st e.dedup_id
      have hdup₂ : isDuplicate st₁
          { e with event_id := input.event_id.getD (generateEventId fresh₂) } = true := by
        simp only [isDuplicate]
        exact List.elem_eq_true_of_mem hmem
      exact track_eq_dup cfg adapters listeners true st₁ input nowIso nowMs₂ fresh₂ _
        henr₂ hval₂ hdup₂
  · have heq := track_eq_offline cfg adapters listeners st input nowIso nowMs fresh e
      henr hval hdup hq
    rw [htrack] at heq
    have hpair := Except.ok.inj heq
    have hst₂ : st₂ = queueEvent cfg st e nowMs :=
      congrArg Prod.fst hpair
    rw [hst₂]
    exact (queueEvent_only_queue cfg st e nowMs).1

/-- C4 witness: with one always-consenting adapter, a first online track of
a concrete valid input dispatches once and records the btoa-derived dedup
key of v1|page_viewed|no_experience|T0, and the identical second call
(different generated event id and clock) is suppressed with no listener and
no adapter calls, leaving the adapter invocation count at 1. -/
theorem dedup_suppresses_second_witness :
    track defaultEventBusConfig [mockAdapter] [] true emptyBusStorage sampleInput "T0" 7 "9" =
      Except.ok ({ emptyBusStorage with
          recentEventIds := ["djf8cgfnzv92awv3zwr8bm9fzxhwzxjpzw5jzxxuma"] },
        [Call.adapterTrack "mock-adapter"]) ∧
    track defaultEventBusConfig [mockAdapter] [] true
        { emptyBusStorage with
            recentEventIds := ["djf8cgfnzv92awv3zwr8bm9fzxhwzxjpzw5jzxxuma"] }
        sampleInput "T0" 8 "10" =
      Except.ok ({ emptyBusStorage with
          recentEventIds := ["djf8cgfnzv92awv3zwr8bm9fzxhwzxjpzw5jzxxuma"] }, []) := by
  refine ⟨by rfl, ?_⟩
  have h := dedup_suppresses_second defaultEventBusConfig [mockAdapter] []
    emptyBusStorage sampleInput "T0" 7 "9"
    { event_id := "event_9", occurred_at := "T0", action := "page_viewed",
      visitor_id := "v1", session_id := "s1", consent := fullConsent, region := "US",
      dedup_id := "djf8cgfnzv92awv3zwr8bm9fzxhwzxjpzw5jzxxuma", experience_id := none }
    (by rfl) (by decide) (by decide)
  exact (h.2.1 (by decide)
    { emptyBusStorage with recentEventIds := ["djf8cgfnzv92awv3zwr8bm9fzxhwzxjpzw5jzxxuma"] }
    [Call.adapterTrack "mock-adapter"] (by rfl)).2 "10" 8

/-- C8 counterexample: the URL of ctxTermOnly carries the UTM field
utm_term, so the claim's UTM branch (any UTM field present builds the
attribution from the UTM fields) would record term = kw; the source tests
only utm_source, utm_medium and utm_campaign, so the visit falls through to
the direct fallback and the attribution differs from the UTM-built one. -/
theorem any_utm_trigger_refuted :
    specAnyUtmPresent ctxTermOnly.utm = true ∧
    classifyVisit ctxTermOnly "T0" ≠
      createAttribution ctxTermOnly.utm (some ctxTermOnly.referrer) "T0" := by
  decide

set_option maxHeartbeats 2000000 in
/-- Helper: for a nonempty parsed referrer, the computed source is a
canonical social name on a social-pattern domain, a canonical search-engine
name on a search-pattern (non-social) domain, and otherwise the lowercased
domain with its first www. stripped. -/
theorem getSource_spec (r hst : String) (hr : ¬ r = "") :
    (matchesSocialDomain (lowerString hst) = true →
      getSourceFromReferrer r (some hst) ∈ socialPlatformNames) ∧
    (matchesSocialDomain (lowerString hst) = false →
      matchesSearchDomain (lowerString hst) = true →
      getSourceFromReferrer r (some hst) ∈ searchEngineNames) ∧
    (matchesSocialDomain (lowerString hst) = false →
      matchesSearchDomain (lowerString hst) = false →
      getSourceFromReferrer r (some hst) = stripWww (lowerString hst)) := by
  refine ⟨fun hsoc => ?_, fun hnsoc hsea => ?_, fun hnsoc hnsea => ?_⟩
  · simp only [matchesSocialDomain, Bool.or_eq_true] at hsoc
    simp only [getSourceFromReferrer, if_neg hr]
    rcases hsoc with ((((((h | h) | h) | h) | h) | h) | h) | h <;>
      (split_ifs <;>
      first
        | (simp_all only [Bool.or_eq_true, Bool.true_or, Bool.or_true, Bool.false_or,
            Bool.or_false, not_true, Bool.false_eq_true, Bool.true_eq_false, or_self,
            or_false, false_or, not_false_iff]
           done)
        | decide)
  · simp only [matchesSocialDomain, Bool.or_eq_false_iff] at hnsoc
    simp only [matchesSearchDomain, Bool.or_eq_true] at hsea
    obtain ⟨⟨⟨⟨⟨⟨⟨hh1, hh2⟩, hh3⟩, hh4⟩, hh5⟩, hh6⟩, hh7⟩, hh8⟩ := hnsoc
    simp only [getSourceFromReferrer, if_neg hr, hh1, hh2, hh3, hh4, hh5, hh6, hh7, hh8,
      Bool.or_self, Bool.false_or, Bool.or_false, Bool.false_eq_true, if_false]
    rcases hsea with ((h | h) | h) | h <;>
      (split_ifs <;>
      first
        | (simp_all only [Bool.or_eq_true, Bool.true_or, Bool.or_true, Bool.false_or,
            Bool.or_false, not_true, Bool.false_eq_true, Bool.true_eq_false, or_self,
            or_false, false_or, not_false_iff]
           done)
        | decide)
  · simp only [matchesSocialDomain, Bool.or_eq_false_iff] at hnsoc
    simp only [matchesSearchDomain, Bool.or_eq_false_iff] at hnsea
    obtain ⟨⟨⟨⟨⟨⟨⟨hh1, hh2⟩, hh3⟩, hh4⟩, hh5⟩, hh6⟩, hh7⟩, hh8⟩ := hnsoc
    obtain ⟨⟨⟨hg1, hg2⟩, hg3⟩, hg4⟩ := hnsea
    simp only [getSourceFromReferrer, if_neg hr, hh1, hh2, hh3, hh4, hh5, hh6, hh7, hh8,
      hg1, hg2, hg3, hg4, Bool.or_self, Bool.false_or, Bool.or_false, Bool.false_eq_true,
      if_false]

/-- Helper: for a nonempty referrer, the medium is organic, social or
referral exactly according to which canonical list the computed source
falls in. -/
theorem getMedium_spec (r : String) (host : Option String) (hr : ¬ r = "") :
    getMediumFromReferrer r host =
      (if searchEngineNames.contains (getSourceFromReferrer r host) then "organic"
       else if socialPlatformNames.contains (getSourceFromReferrer r host) then "social"
       else "referral") := by
  simp only [getMediumFromReferrer, if_neg hr, searchEngineNames, socialPlatformNames]

/-- Helper: a canonical social name is classified social (it is not a
search-engine name). -/
theorem medium_of_social (src : String) (hmem : src ∈ socialPlatformNames) :
    (if searchEngineNames.contains src then "organic"
     else if socialPlatformNames.contains src then "social" else "referral") = "social" := by
  fin_cases hmem <;> decide

/-- Helper: a canonical search-engine name is classified organic. -/
theorem medium_of_search (src : String) (hmem : src ∈ searchEngineNames) :
    (if searchEngineNames.contains src then "organic"
     else if socialPlatformNames.contains src then "social" else "referral") = "organic" := by
  fin_cases hmem <;> decide

/-- C8 (amended): classification precedence of processCurrentVisit — the
UTM branch triggers exactly on a truthy utm_source, utm_medium or
utm_campaign and copies the UTM fields plus referrer; otherwise an external
referrer is classified from its domain, medium being organic / social /
referral according to the canonical list the computed source falls in,
with the source a canonical platform name on a matched domain pattern and
the www.-stripped lowercased domain otherwise; otherwise source and medium
are both direct. -/
theorem classify_precedence (ctx : VisitContext) (now : String) :
    ((truthyStr ctx.utm.utm_source || truthyStr ctx.utm.utm_medium ||
        truthyStr ctx.utm.utm_campaign) = true →
      classifyVisit ctx now = createAttribution ctx.utm (some ctx.referrer) now) ∧
    (∀ hst : String,
      (truthyStr ctx.utm.utm_source || truthyStr ctx.utm.utm_medium ||
        truthyStr ctx.utm.utm_campaign) = false →
      ctx.referrer ≠ "" → ctx.referrerHost = some hst → hst ≠ ctx.currentHost →
      ((classifyVisit ctx now).source =
          some (getSourceFromReferrer ctx.referrer ctx.referrerHost) ∧
        (classifyVisit ctx now).medium =
          some (getMediumFromReferrer ctx.referrer ctx.referrerHost) ∧
        (classifyVisit ctx now).referrer = some ctx.referrer) ∧
      getMediumFromReferrer ctx.referrer ctx.referrerHost =
        (if searchEngineNames.contains (getSourceFromReferrer ctx.referrer ctx.referrerHost)
          then "organic"
         else if socialPlatformNames.contains
            (getSourceFromReferrer ctx.referrer ctx.referrerHost)
          then "social"
         else "referral") ∧
      (matchesSocialDomain (lowerString hst) = true →
        getSourceFromReferrer ctx.referrer ctx.referrerHost ∈ socialPlatformNames ∧
        getMediumFromReferrer ctx.referrer ctx.referrerHost = "social") ∧
      (matchesSocialDomain (lowerString hst) = false →
        matchesSearchDomain (lowerString hst) = true →
        getSourceFromReferrer ctx.referrer ctx.referrerHost ∈ searchEngineNames ∧
        getMediumFromReferrer ctx.referrer ctx.referrerHost = "organic") ∧
      (matchesSocialDomain (lowerString hst) = false →
        matchesSearchDomain (lowerString hst) = false →
        getSourceFromReferrer ctx.referrer ctx.referrerHost = stripWww (lowerString hst))) ∧
    ((truthyStr ctx.utm.utm_source || truthyStr ctx.utm.utm_medium ||
        truthyStr ctx.utm.utm_campaign) = false →
      (ctx.referrer = "" ∨ ctx.referrerHost = none ∨ ctx.referrerHost = some ctx.currentHost) →
      (classifyVisit ctx now).source = some "direct" ∧
      (classifyVisit ctx now).medium = some "direct") := by
  refine ⟨fun hutm => ?_, fun hst hutm hne hhost hext => ?_, fun hutm hdir => ?_⟩
  · simp [classifyVisit, hutm]
  · have hextb : isExternalReferrer ctx = true := by
      simp [isExternalReferrer, if_neg hne, hhost, hext]
    have hbranch : classifyVisit ctx now =
        createAttribution
          { utm_source := some (getSourceFromReferrer ctx.referrer ctx.referrerHost)
            utm_medium := some (getMediumFromReferrer ctx.referrer ctx.referrerHost) }
          (some ctx.referrer) now := by
      simp [classifyVisit, hutm, hextb, hne]
    have hsrc := getSource_spec ctx.referrer hst hne
    have hmed := getMedium_spec ctx.referrer (some hst) hne
    rw [hhost] at hbranch ⊢
    refine ⟨?_, hmed, fun hs => ?_, fun hns hsea => ?_, hsrc.2.2⟩
    · rw [hbranch]
      exact ⟨rfl, rfl, rfl⟩
    · exact ⟨hsrc.1 hs, by rw [hmed]; exact medium_of_social _ (hsrc.1 hs)⟩
    · exact ⟨hsrc.2.1 hns hsea, by rw [hmed]; exact medium_of_search _ (hsrc.2.1 hns hsea)⟩
  · have hfalse : isExternalReferrer ctx = false := by
      rcases hdir with hd | hd | hd
      · simp [isExternalReferrer, hd]
      · simp [isExternalReferrer, hd]
      · simp [isExternalReferrer, hd]
    have hnotext : (ctx.referrer != "" && isExternalReferrer ctx) = false := by
      simp [hfalse]
    simp [classifyVisit, hutm, hnotext, createAttribution]

/-- C8 witness: the amended theorem instantiated at a Google search
referrer with no UTM parameters — classified organic, with a canonical
search-engine source. -/
theorem classify_precedence_witness :
    (classifyVisit ctxGoogleReferrer "T0").medium = some "organic" ∧
    getSourceFromReferrer ctxGoogleReferrer.referrer ctxGoogleReferrer.referrerHost ∈
      searchEngineNames := by
  have h := (classify_precedence ctxGoogleReferrer "T0").2.1 "www.google.com"
    (by decide) (by decide) rfl (by decide)
  have hsea := h.2.2.2.1 (by decide) (by decide)
  exact ⟨by rw [h.1.2.1, hsea.2], hsea.1⟩

end GrowthToolkit
